import Mathlib

/-!
Verification of the EKS cluster-engine core against its specification.

The definitions below are a shallow embedding of the Rust sources:
* `src/cloud_provider/aws/kubernetes/eks.rs` — node-pool reconciliation
  (`select_nodegroups_autoscaling_group_behavior`), failed node-pool
  selection (`check_failed_nodegroups_to_remove`), node-group deletion
  orchestration (`delete_eks_nodegroups`), and the upgrade routine
  (`upgrade_with_status`).
* `src/metrics_registry.rs` — the step/metrics recording registry
  (`StdMetricsRegistry`, `StepRecordHandle`).

Machine integers (`i32`) are modelled as `Int`: the code only compares and
copies them, so no overflow behaviour is relevant. External collaborators
(terraform apply, the Kubernetes API client, the AWS SDK) are modelled as
oracles recording the requests that the code issues, and clock readings
(`Instant::now`) are passed explicitly as natural numbers.
-/

namespace Engine

/-! ### Node pool data model

`NodeGroups` and `NodeGroupsWithDesiredState` live in
`src/cloud_provider/models.rs`, which is not among the provided sources;
their fields are reconstructed from the constructors used by
`src/cloud_provider/aws/kubernetes/eks.rs` and its tests
(`NodeGroups::new(name, min, max, instance_type, disk, arch)`,
`NodeGroupsWithDesiredState::new(name, id, min, max, desired, enable, instance_type, disk)`). -/

/-- A node pool specification (`NodeGroups` in `src/cloud_provider/models.rs`). -/
structure NodeGroups where
  name : String
  min_nodes : Int
  max_nodes : Int
  instance_type : String
  disk_size_in_gib : Int
deriving DecidableEq, Repr

/-- A node pool together with its computed desired state
(`NodeGroupsWithDesiredState` in `src/cloud_provider/models.rs`). -/
structure NodeGroupsWithDesiredState where
  name : String
  min_nodes : Int
  max_nodes : Int
  desired_size : Int
  enable_desired_size : Bool
  instance_type : String
  disk_size_in_gib : Int
deriving DecidableEq, Repr

/-- Modelled from the spec: `NodeGroupsWithDesiredState::new_from_node_groups`
is declared in `src/cloud_provider/models.rs`, which is missing from the
provided sources. Per the spec's data model (§3, `NodePoolDesiredState`) and
the unit tests of `eks.rs` it copies the pool spec fields and records the
computed `desired_size` together with the `enable_desired_size` (force) flag. -/
def NodeGroupsWithDesiredState.new_from_node_groups (nodegroup : NodeGroups)
    (desired_size : Int) (enable_desired_size : Bool) : NodeGroupsWithDesiredState :=
  { name := nodegroup.name
    min_nodes := nodegroup.min_nodes
    max_nodes := nodegroup.max_nodes
    desired_size := desired_size
    enable_desired_size := enable_desired_size
    instance_type := nodegroup.instance_type
    disk_size_in_gib := nodegroup.disk_size_in_gib }

/-- Lifecycle action on a cluster (`KubernetesClusterAction` in
`src/cloud_provider/models.rs`, variants as used by `eks.rs`). -/
inductive KubernetesClusterAction
  | Bootstrap
  | Update (current_nodes : Option Int)
  | Upgrade (current_nodes : Option Int)
  | Pause
  | Delete
  | Resume (current_nodes : Option Int)
deriving DecidableEq, Repr

/-- Embedding of `select_nodegroups_autoscaling_group_behavior`
(`src/cloud_provider/aws/kubernetes/eks.rs`, lines 797-838). -/
def select_nodegroups_autoscaling_group_behavior (action : KubernetesClusterAction)
    (nodegroup : NodeGroups) : NodeGroupsWithDesiredState :=
  let nodegroup_desired_state := fun (x : Int) =>
    -- desired nodes can't be lower than min nodes
    if x < nodegroup.min_nodes then (true, nodegroup.min_nodes)
    -- desired nodes can't be higher than max nodes
    else if x > nodegroup.max_nodes then (true, nodegroup.max_nodes)
    else (false, x)
  match action with
  | .Bootstrap =>
      NodeGroupsWithDesiredState.new_from_node_groups nodegroup nodegroup.min_nodes true
  | .Update current_nodes | .Upgrade current_nodes =>
      let (upgrade_required, desired_state) :=
        match current_nodes with
        | some x => nodegroup_desired_state x
        | none => (true, nodegroup.max_nodes)
      NodeGroupsWithDesiredState.new_from_node_groups nodegroup desired_state upgrade_required
  | .Pause | .Delete =>
      NodeGroupsWithDesiredState.new_from_node_groups nodegroup nodegroup.min_nodes false
  | .Resume current_nodes =>
      let resume_nodes_number :=
        match current_nodes with
        | some x => (nodegroup_desired_state x).2
        | none => nodegroup.min_nodes
      NodeGroupsWithDesiredState.new_from_node_groups nodegroup resume_nodes_number true

/-- The clamp function exactly as the spec words it: `clamp(x)` is `min_nodes`
if `x < min_nodes`, `max_nodes` if `x > max_nodes`, else `x`. -/
def clamp (nodegroup : NodeGroups) (x : Int) : Int :=
  if x < nodegroup.min_nodes then nodegroup.min_nodes
  else if x > nodegroup.max_nodes then nodegroup.max_nodes
  else x

/-- Whether an observed node count is out of the pool's bounds. -/
def outOfBounds (nodegroup : NodeGroups) (x : Int) : Bool :=
  decide (x < nodegroup.min_nodes ∨ x > nodegroup.max_nodes)

/-- Desired size and force flag computed by the reconciler, as a pair. -/
def reconcileResult (action : KubernetesClusterAction) (nodegroup : NodeGroups) :
    Int × Bool :=
  ((select_nodegroups_autoscaling_group_behavior action nodegroup).desired_size,
   (select_nodegroups_autoscaling_group_behavior action nodegroup).enable_desired_size)

end Engine

namespace Engine

/-- C3: for every pool spec with `min_nodes ≤ max_nodes`,
`select_nodegroups_autoscaling_group_behavior` implements exactly the decision
table: Bootstrap → (min_nodes, forced); Update/Upgrade with observed count x →
(clamp x, forced iff x out of bounds); Update/Upgrade with no observed count →
(max_nodes, forced); Pause/Delete → (min_nodes, not forced); Resume with
observed count x → (clamp x, forced always); Resume with no observed count →
(min_nodes, forced). -/
theorem reconcile_decision_table (nodegroup : NodeGroups)
    (h : nodegroup.min_nodes ≤ nodegroup.max_nodes) :
    reconcileResult .Bootstrap nodegroup = (nodegroup.min_nodes, true)
    ∧ (∀ x : Int, reconcileResult (.Update (some x)) nodegroup
        = (clamp nodegroup x, outOfBounds nodegroup x))
    ∧ (∀ x : Int, reconcileResult (.Upgrade (some x)) nodegroup
        = (clamp nodegroup x, outOfBounds nodegroup x))
    ∧ reconcileResult (.Update none) nodegroup = (nodegroup.max_nodes, true)
    ∧ reconcileResult (.Upgrade none) nodegroup = (nodegroup.max_nodes, true)
    ∧ reconcileResult .Pause nodegroup = (nodegroup.min_nodes, false)
    ∧ reconcileResult .Delete nodegroup = (nodegroup.min_nodes, false)
    ∧ (∀ x : Int, reconcileResult (.Resume (some x)) nodegroup
        = (clamp nodegroup x, true))
    ∧ reconcileResult (.Resume none) nodegroup = (nodegroup.min_nodes, true) := by
  refine ⟨rfl, ?_, ?_, rfl, rfl, rfl, rfl, ?_, rfl⟩ <;>
    intro x <;>
    simp only [reconcileResult, select_nodegroups_autoscaling_group_behavior,
      NodeGroupsWithDesiredState.new_from_node_groups, clamp, outOfBounds] <;>
    split_ifs <;> simp_all <;> omega

/-- Witness for C3 at the pool of the repository's unit test
(`min 3`, `max 10`): `Update(Some 6)` yields `(6, false)` and
`Update(None)` yields `(10, true)`. -/
theorem reconcile_decision_table_witness :
    reconcileResult (.Update (some 6))
        ⟨"nodegroup", 3, 10, "t1000.xlarge", 20⟩ = (6, false)
    ∧ reconcileResult (.Update none)
        ⟨"nodegroup", 3, 10, "t1000.xlarge", 20⟩ = (10, true) := by
  have h := reconcile_decision_table ⟨"nodegroup", 3, 10, "t1000.xlarge", 20⟩ (by decide)
  refine ⟨?_, h.2.2.2.1⟩
  have h2 := h.2.1 6
  simpa using h2

/-- C4: for every pool spec with `min_nodes ≤ max_nodes` and every lifecycle
action, the desired size computed by
`select_nodegroups_autoscaling_group_behavior` lies within
`[min_nodes, max_nodes]`. -/
theorem reconcile_desired_size_within_bounds (action : KubernetesClusterAction)
    (nodegroup : NodeGroups) (h : nodegroup.min_nodes ≤ nodegroup.max_nodes) :
    nodegroup.min_nodes
        ≤ (select_nodegroups_autoscaling_group_behavior action nodegroup).desired_size
    ∧ (select_nodegroups_autoscaling_group_behavior action nodegroup).desired_size
        ≤ nodegroup.max_nodes := by
  cases action with
  | Bootstrap => exact ⟨le_refl _, h⟩
  | Update current_nodes =>
      cases current_nodes with
      | none => exact ⟨h, le_refl _⟩
      | some x =>
          simp only [select_nodegroups_autoscaling_group_behavior,
            NodeGroupsWithDesiredState.new_from_node_groups]
          split_ifs <;> simp_all <;> omega
  | Upgrade current_nodes =>
      cases current_nodes with
      | none => exact ⟨h, le_refl _⟩
      | some x =>
          simp only [select_nodegroups_autoscaling_group_behavior,
            NodeGroupsWithDesiredState.new_from_node_groups]
          split_ifs <;> simp_all <;> omega
  | Pause => exact ⟨le_refl _, h⟩
  | Delete => exact ⟨le_refl _, h⟩
  | Resume current_nodes =>
      cases current_nodes with
      | none => exact ⟨le_refl _, h⟩
      | some x =>
          simp only [select_nodegroups_autoscaling_group_behavior,
            NodeGroupsWithDesiredState.new_from_node_groups]
          split_ifs <;> simp_all <;> omega

/-- Witness for C4: on the test pool (`min 3`, `max 10`) with an out-of-range
observed count, the desired size stays within bounds. -/
theorem reconcile_desired_size_within_bounds_witness :
    (3 : Int) ≤ (select_nodegroups_autoscaling_group_behavior (.Update (some 1000))
        ⟨"nodegroup", 3, 10, "t1000.xlarge", 20⟩).desired_size
    ∧ (select_nodegroups_autoscaling_group_behavior (.Update (some 1000))
        ⟨"nodegroup", 3, 10, "t1000.xlarge", 20⟩).desired_size ≤ 10 := by
  exact reconcile_desired_size_within_bounds (.Update (some 1000))
    ⟨"nodegroup", 3, 10, "t1000.xlarge", 20⟩ (by decide)

end Engine

namespace Engine

/-! ### Node-pool failure recovery

Embedding of `check_failed_nodegroups_to_remove`
(`src/cloud_provider/aws/kubernetes/eks.rs`, lines 1055-1094) and of the
selection performed by `delete_eks_nodegroups` (lines 980-1027).
`DescribeNodegroupOutput` is the AWS SDK description of one node group:
its `nodegroup()` accessor returns an optional node-group body, which in
turn has optional name, status and health fields. -/

/-- Node group status (`aws_sdk_eks::model::NodegroupStatus`), the variants
the code matches on; every other SDK variant behaves like the wildcard arm
and is represented by `OtherStatus`. -/
inductive NodegroupStatus
  | Creating
  | Active
  | Updating
  | Deleting
  | CreateFailed
  | DeleteFailed
  | Degraded
  | OtherStatus
deriving DecidableEq, Repr

/-- Node group body (`aws_sdk_eks::model::Nodegroup`), restricted to the
fields read by the code under verification. -/
structure Nodegroup where
  nodegroup_name : Option String
  status : Option NodegroupStatus
deriving DecidableEq, Repr

/-- `aws_sdk_eks::output::DescribeNodegroupOutput`: an optional node-group
body. -/
structure DescribeNodegroupOutput where
  nodegroup : Option Nodegroup
deriving DecidableEq, Repr

/-- `NodeGroupToRemoveFailure` (`eks.rs`, lines 912-920). -/
inductive NodeGroupToRemoveFailure
  | ClusterNotFound
  | NodeGroupNotFound
  | OneNodeGroupMustBeActiveAtLeast
deriving DecidableEq, Repr

/-- `NodeGroupsDeletionType` (`eks.rs`, lines 922-926). -/
inductive NodeGroupsDeletionType
  | All
  | FailedOnly
deriving DecidableEq, Repr

/-- The status match of the loop body of `check_failed_nodegroups_to_remove`:
`CreateFailed`, `DeleteFailed` and `Degraded` are pushed, every other status
is skipped. -/
def isFailedStatus : NodegroupStatus → Bool
  | .CreateFailed => true
  | .DeleteFailed => true
  | .Degraded => true
  | _ => false

/-- A described node group that the loop of `check_failed_nodegroups_to_remove`
pushes onto `failed_nodegroups_to_remove`: it has a body whose status is one of
the three failed statuses. -/
def isFailedOutput (out : DescribeNodegroupOutput) : Bool :=
  match out.nodegroup with
  | some ng =>
      match ng.status with
      | some s => isFailedStatus s
      | none => false
  | none => false

/-- The `for` loop of `check_failed_nodegroups_to_remove` (lines 1060-1086):
collects failed node groups in input order, aborting with `NodeGroupNotFound`
as soon as a description with no node-group body is met. -/
def collect_failed_nodegroups :
    List DescribeNodegroupOutput →
    Except NodeGroupToRemoveFailure (List DescribeNodegroupOutput)
  | [] => .ok []
  | out :: rest =>
    match out.nodegroup with
    | some ng =>
        match ng.status with
        | some s =>
            if isFailedStatus s then
              match collect_failed_nodegroups rest with
              | .ok failed => .ok (out :: failed)
              | .error e => .error e
            else collect_failed_nodegroups rest
        | none => collect_failed_nodegroups rest
    | none => .error .NodeGroupNotFound

/-- Embedding of `check_failed_nodegroups_to_remove` (`eks.rs`,
lines 1055-1094): run the collection loop, then refuse to remove all node
groups of a non-empty input (`OneNodeGroupMustBeActiveAtLeast`). -/
def check_failed_nodegroups_to_remove (nodegroups : List DescribeNodegroupOutput) :
    Except NodeGroupToRemoveFailure (List DescribeNodegroupOutput) :=
  match collect_failed_nodegroups nodegroups with
  | .error e => .error e
  | .ok failed_nodegroups_to_remove =>
      -- ensure we don't remove all nodegroups (even failed ones) to avoid blackout
      if failed_nodegroups_to_remove.length = nodegroups.length ∧ nodegroups ≠ [] then
        .error .OneNodeGroupMustBeActiveAtLeast
      else .ok failed_nodegroups_to_remove

/-- Error kinds produced by the selection step of `delete_eks_nodegroups`
(`EngineError` constructors used at lines 1014 and 1020). -/
inductive NodegroupDeletionSelectionError
  | NodegroupDeleteAnyNodegroupError
  | NodegroupDeleteError
deriving DecidableEq, Repr

/-- The `nodegroups_to_delete` selection of `delete_eks_nodegroups`
(`eks.rs`, lines 980-1027): on a first install, or when the deletion type is
`All`, every described node group is selected with no health check; otherwise
the failed subset computed by `check_failed_nodegroups_to_remove` is used and
its errors are mapped to engine errors. -/
def nodegroups_to_delete_selection (is_first_install : Bool)
    (nodegroup_delete_selection : NodeGroupsDeletionType)
    (all_cluster_nodegroups_described : List DescribeNodegroupOutput) :
    Except NodegroupDeletionSelectionError (List DescribeNodegroupOutput) :=
  if is_first_install || nodegroup_delete_selection = NodeGroupsDeletionType.All then
    .ok all_cluster_nodegroups_described
  else
    match check_failed_nodegroups_to_remove all_cluster_nodegroups_described with
    | .ok x => .ok x
    | .error e =>
        if e = NodeGroupToRemoveFailure.OneNodeGroupMustBeActiveAtLeast then
          .error .NodegroupDeleteAnyNodegroupError
        else .error .NodegroupDeleteError

/-- When every description in the list has a node-group body, the collection
loop succeeds and returns exactly the failed descriptions, in input order. -/
theorem collect_failed_nodegroups_all_some
    (l : List DescribeNodegroupOutput)
    (h : ∀ out ∈ l, out.nodegroup.isSome) :
    collect_failed_nodegroups l = .ok (l.filter isFailedOutput) := by
  induction l with
  | nil => rfl
  | cons out rest ih =>
      have hout : out.nodegroup.isSome := h out (List.mem_cons_self out rest)
      have hrest : ∀ o ∈ rest, o.nodegroup.isSome :=
        fun o ho => h o (List.mem_cons_of_mem out ho)
      obtain ⟨ng, hng⟩ := Option.isSome_iff_exists.mp hout
      cases hs : ng.status with
      | none =>
          simp [collect_failed_nodegroups, hng, hs, ih hrest,
            List.filter_cons, isFailedOutput]
      | some s =>
          by_cases hf : isFailedStatus s = true
          · simp [collect_failed_nodegroups, hng, hs, hf, ih hrest,
              List.filter_cons, isFailedOutput]
          · simp [collect_failed_nodegroups, hng, hs, hf, ih hrest,
              List.filter_cons, isFailedOutput]

/-- If some description in the list has no node-group body, the collection
loop fails with `NodeGroupNotFound`. -/
theorem collect_failed_nodegroups_missing_body
    (l : List DescribeNodegroupOutput)
    (h : ∃ out ∈ l, out.nodegroup = none) :
    collect_failed_nodegroups l = .error .NodeGroupNotFound := by
  induction l with
  | nil => simp at h
  | cons out rest ih =>
      obtain ⟨o, ho, hnone⟩ := h
      rcases List.mem_cons.mp ho with rfl | hmem
      · simp [collect_failed_nodegroups, hnone]
      · cases hng : out.nodegroup with
        | none => simp [collect_failed_nodegroups, hng]
        | some ng =>
            have ihr := ih ⟨o, hmem, hnone⟩
            cases hs : ng.status with
            | none => simp [collect_failed_nodegroups, hng, hs, ihr]
            | some s =>
                by_cases hf : isFailedStatus s = true <;>
                  simp [collect_failed_nodegroups, hng, hs, hf, ihr]

end Engine

namespace Engine

/-- C2: if every described node pool of a non-empty input is classified as
failed (`CreateFailed`, `DeleteFailed` or `Degraded`),
`check_failed_nodegroups_to_remove` refuses with
`OneNodeGroupMustBeActiveAtLeast` instead of returning a deletion subset. -/
theorem check_failed_nodegroups_all_failed_rejected
    (nodegroups : List DescribeNodegroupOutput)
    (h1 : nodegroups ≠ [])
    (h2 : ∀ out ∈ nodegroups, isFailedOutput out = true) :
    check_failed_nodegroups_to_remove nodegroups
      = .error .OneNodeGroupMustBeActiveAtLeast := by
  have hsome : ∀ out ∈ nodegroups, out.nodegroup.isSome := by
    intro out hmem
    have hf := h2 out hmem
    unfold isFailedOutput at hf
    cases hng : out.nodegroup with
    | none => rw [hng] at hf; exact absurd hf (by simp)
    | some ng => simp
  have hc := collect_failed_nodegroups_all_some nodegroups hsome
  have hfl : nodegroups.filter isFailedOutput = nodegroups :=
    List.filter_eq_self.mpr h2
  simp [check_failed_nodegroups_to_remove, hc, hfl, h1]

/-- Witness for C2: a single-pool input whose only pool is `CreateFailed`
is rejected with `OneNodeGroupMustBeActiveAtLeast`. -/
theorem check_failed_nodegroups_all_failed_rejected_witness :
    check_failed_nodegroups_to_remove
        [⟨some ⟨some "nodegroup_create_failed", some .CreateFailed⟩⟩]
      = .error .OneNodeGroupMustBeActiveAtLeast :=
  check_failed_nodegroups_all_failed_rejected
    [⟨some ⟨some "nodegroup_create_failed", some .CreateFailed⟩⟩]
    (by decide) (by decide)

/-- C5: `check_failed_nodegroups_to_remove` (a) succeeds on any input whose
pools all carry a body and at least one of which is not failed, returning
exactly the failed pools in input order (pools with any other or missing
status are never selected); (b) fails with `NodeGroupNotFound` whenever some
description has no node-group body; (c) maps the empty input to an empty
successful result. -/
theorem check_failed_nodegroups_selection
    (nodegroups : List DescribeNodegroupOutput) :
    ((∀ out ∈ nodegroups, out.nodegroup.isSome) →
      (∃ out ∈ nodegroups, isFailedOutput out = false) →
      check_failed_nodegroups_to_remove nodegroups
        = .ok (nodegroups.filter isFailedOutput))
    ∧ ((∃ out ∈ nodegroups, out.nodegroup = none) →
      check_failed_nodegroups_to_remove nodegroups = .error .NodeGroupNotFound)
    ∧ check_failed_nodegroups_to_remove [] = .ok [] := by
  refine ⟨?_, ?_, rfl⟩
  · intro hsome hnotall
    have hc := collect_failed_nodegroups_all_some nodegroups hsome
    have hlen : (nodegroups.filter isFailedOutput).length ≠ nodegroups.length := by
      intro hlen
      have heq : nodegroups.filter isFailedOutput = nodegroups :=
        (List.filter_sublist nodegroups).eq_of_length hlen
      obtain ⟨out, hmem, hfalse⟩ := hnotall
      have := List.filter_eq_self.mp heq out hmem
      simp [hfalse] at this
    simp [check_failed_nodegroups_to_remove, hc, hlen]
  · intro hmissing
    have hc := collect_failed_nodegroups_missing_body nodegroups hmissing
    simp [check_failed_nodegroups_to_remove, hc]

/-- Witness for C5: on `[Active, CreateFailed]` the selection succeeds and
returns exactly the `CreateFailed` pool; a one-element input whose description
has no body fails with `NodeGroupNotFound`. -/
theorem check_failed_nodegroups_selection_witness :
    check_failed_nodegroups_to_remove
        [⟨some ⟨some "nodegroup_ok", some .Active⟩⟩,
         ⟨some ⟨some "nodegroup_create_failed", some .CreateFailed⟩⟩]
      = .ok [⟨some ⟨some "nodegroup_create_failed", some .CreateFailed⟩⟩]
    ∧ check_failed_nodegroups_to_remove [⟨none⟩] = .error .NodeGroupNotFound := by
  constructor
  · have h := (check_failed_nodegroups_selection
        [⟨some ⟨some "nodegroup_ok", some .Active⟩⟩,
         ⟨some ⟨some "nodegroup_create_failed", some .CreateFailed⟩⟩]).1
      (by decide) (by decide)
    simpa using h
  · exact (check_failed_nodegroups_selection [⟨none⟩]).2.1 (by decide)

/-- C9: in `delete_eks_nodegroups`, when `is_first_install` is true or the
deletion type is `All`, the entire described node-pool list is selected with
no health check; otherwise the successful selection is exactly the failed
subset computed by `check_failed_nodegroups_to_remove`. -/
theorem nodegroups_to_delete_selection_behavior (is_first_install : Bool)
    (sel : NodeGroupsDeletionType) (described : List DescribeNodegroupOutput) :
    ((is_first_install = true ∨ sel = NodeGroupsDeletionType.All) →
      nodegroups_to_delete_selection is_first_install sel described = .ok described)
    ∧ (is_first_install = false → sel = NodeGroupsDeletionType.FailedOnly →
      ∀ x, nodegroups_to_delete_selection is_first_install sel described = .ok x
        ↔ check_failed_nodegroups_to_remove described = .ok x) := by
  constructor
  · rintro (rfl | rfl) <;> simp [nodegroups_to_delete_selection]
  · rintro rfl rfl x
    cases hc : check_failed_nodegroups_to_remove described with
    | ok y => simp [nodegroups_to_delete_selection, hc]
    | error e =>
        by_cases he : e = NodeGroupToRemoveFailure.OneNodeGroupMustBeActiveAtLeast <;>
          simp [nodegroups_to_delete_selection, hc, he]

/-- Witness for C9: with `is_first_install = false` and `FailedOnly` deletion
the selected pools on `[Active, CreateFailed]` are exactly the failed subset;
with `All` the whole list is selected. -/
theorem nodegroups_to_delete_selection_behavior_witness :
    nodegroups_to_delete_selection false NodeGroupsDeletionType.FailedOnly
        [⟨some ⟨some "nodegroup_ok", some .Active⟩⟩,
         ⟨some ⟨some "nodegroup_create_failed", some .CreateFailed⟩⟩]
      = .ok [⟨some ⟨some "nodegroup_create_failed", some .CreateFailed⟩⟩]
    ∧ nodegroups_to_delete_selection false NodeGroupsDeletionType.All
        [⟨some ⟨some "nodegroup_ok", some .Active⟩⟩,
         ⟨some ⟨some "nodegroup_create_failed", some .CreateFailed⟩⟩]
      = .ok [⟨some ⟨some "nodegroup_ok", some .Active⟩⟩,
             ⟨some ⟨some "nodegroup_create_failed", some .CreateFailed⟩⟩] := by
  constructor
  · exact ((nodegroups_to_delete_selection_behavior false
        NodeGroupsDeletionType.FailedOnly
        [⟨some ⟨some "nodegroup_ok", some .Active⟩⟩,
         ⟨some ⟨some "nodegroup_create_failed", some .CreateFailed⟩⟩]).2
      rfl rfl [⟨some ⟨some "nodegroup_create_failed", some .CreateFailed⟩⟩]).mpr
      (by rfl)
  · exact (nodegroups_to_delete_selection_behavior false
        NodeGroupsDeletionType.All
        [⟨some ⟨some "nodegroup_ok", some .Active⟩⟩,
         ⟨some ⟨some "nodegroup_create_failed", some .CreateFailed⟩⟩]).1
      (Or.inr rfl)

end Engine

namespace Engine

/-! ### Step/metrics recording registry

Embedding of `src/metrics_registry.rs`. The two `HashMap`s
(`MetricsRegistryMap = HashMap<Uuid, HashMap<StepName, StepRecord>>`) are
modelled as association lists with at most one binding per key (insertion
replaces); `Uuid` is modelled as `Nat`, and `Instant`/`Duration` as `Nat`
clock readings passed explicitly to each operation. The message publisher
collaborator is modelled by accumulating the records it is sent. -/

/-- `StepName` (`metrics_registry.rs`, lines 8-16). -/
inductive StepName
  | Total
  | ProvisionBuilder
  | RegistryCreateRepository
  | GitClone
  | Build
  | Deployment
deriving DecidableEq, Repr

/-- `StepLabel` (`metrics_registry.rs`, lines 31-35). -/
inductive StepLabel
  | Service
  | Environment
deriving DecidableEq, Repr

/-- `StepStatus` (`metrics_registry.rs`, lines 37-44). -/
inductive StepStatus
  | Success
  | Error
  | Cancel
  | Skip
  | NotSet
deriving DecidableEq, Repr

/-- `StepRecord` (`metrics_registry.rs`, lines 46-54). -/
structure StepRecord where
  step_name : StepName
  label : StepLabel
  id : Nat
  start_time : Nat
  duration : Option Nat
  status : Option StepStatus
deriving DecidableEq, Repr

/-- `StepRecord::new` (`metrics_registry.rs`, lines 78-89): fresh record at
the current instant, with no duration and no status. -/
def StepRecord.new (step_name : StepName) (label : StepLabel) (id : Nat)
    (now : Nat) : StepRecord :=
  { step_name := step_name, label := label, id := id,
    start_time := now, duration := none, status := none }

/-- Association-list lookup (model of `HashMap::get`). -/
def assocGet {α β : Type} [DecidableEq α] : List (α × β) → α → Option β
  | [], _ => none
  | (k, v) :: rest, key => if k = key then some v else assocGet rest key

/-- Association-list insertion replacing any existing binding
(model of `HashMap::insert`). -/
def assocInsert {α β : Type} [DecidableEq α] : List (α × β) → α → β → List (α × β)
  | [], key, v => [(key, v)]
  | (k, w) :: rest, key, v =>
      if k = key then (key, v) :: rest else (k, w) :: assocInsert rest key v

/-- The per-entity step map (`StepRecordMap`, line 117). -/
abbrev StepRecordMap := List (StepName × StepRecord)

/-- The registry map (`MetricsRegistryMap`, line 118). -/
abbrev MetricsRegistryMap := List (Nat × StepRecordMap)

/-- The mutable state of `StdMetricsRegistry` (lines 120-124): the guarded
registry map plus the stream of records sent to the message publisher. -/
structure StdMetricsRegistry where
  registry : MetricsRegistryMap
  published : List StepRecord
deriving DecidableEq, Repr

/-- `registry.entry(id).or_insert(HashMap::new())`: returns the per-entity
map (empty when absent) alongside the registry map after the entry call. -/
def entryOrInsert (m : MetricsRegistryMap) (id : Nat) :
    StepRecordMap × MetricsRegistryMap :=
  match assocGet m id with
  | some inner => (inner, m)
  | none => ([], assocInsert m id [])

/-- `StdMetricsRegistry::start_record` (lines 142-154): create (overwriting
any previous one, which is only logged) the record for `(id, step_name)`.
The returned `StepRecordHandle` is determined by `(id, step_name)`. -/
def start_record (reg : StdMetricsRegistry) (id : Nat) (label : StepLabel)
    (step_name : StepName) (now : Nat) : StdMetricsRegistry :=
  let (metrics_per_id, m) := entryOrInsert reg.registry id
  let metrics_updated :=
    assocInsert metrics_per_id step_name (StepRecord.new step_name label id now)
  { reg with registry := assocInsert m id metrics_updated }

/-- `StdMetricsRegistry::stop_record` (lines 156-174): when a record for
`(id, step_name)` exists, set its duration to the elapsed time and its status,
and send the finished record to the message publisher; otherwise only an
anomaly is logged and nothing is changed at the record level. -/
def stop_record (reg : StdMetricsRegistry) (id : Nat) (step_name : StepName)
    (status : StepStatus) (now : Nat) : StdMetricsRegistry :=
  let (metrics_per_id, m) := entryOrInsert reg.registry id
  match assocGet metrics_per_id step_name with
  | some deployment_step_record =>
      let finished := { deployment_step_record with
        duration := some (now - deployment_step_record.start_time),
        status := some status }
      { registry := assocInsert m id (assocInsert metrics_per_id step_name finished),
        published := reg.published ++ [finished] }
  | none => { reg with registry := m }

/-- Record lookup for `(id, step_name)`, the observable the registry keys on. -/
def lookupRecord (reg : StdMetricsRegistry) (id : Nat) (step_name : StepName) :
    Option StepRecord :=
  assocGet ((assocGet reg.registry id).getD []) step_name

/-- `StdMetricsRegistry::record_is_stopped` (lines 176-185): a record for
`(id, step_name)` exists and carries a duration. -/
def record_is_stopped (reg : StdMetricsRegistry) (id : Nat)
    (step_name : StepName) : Bool :=
  match lookupRecord reg id step_name with
  | some deployment_step_record => deployment_step_record.duration.isSome
  | none => false

/-- `StdMetricsRegistry::get_records` (lines 187-197): the entity's records
that carry a recorded duration. -/
def get_records (reg : StdMetricsRegistry) (id : Nat) : List StepRecord :=
  (((assocGet reg.registry id).getD []).map (fun p => p.2)).filter
    (fun record => record.duration.isSome)

/-- `Drop for StepRecordHandle` (lines 109-115): when the handle is released,
stop the record with `NotSet` unless it is already stopped. -/
def drop_handle (reg : StdMetricsRegistry) (id : Nat) (step_name : StepName)
    (now : Nat) : StdMetricsRegistry :=
  if record_is_stopped reg id step_name then reg
  else stop_record reg id step_name StepStatus.NotSet now

theorem assocGet_assocInsert_self {α β : Type} [DecidableEq α]
    (m : List (α × β)) (key : α) (v : β) :
    assocGet (assocInsert m key v) key = some v := by
  induction m with
  | nil => simp [assocGet, assocInsert]
  | cons p rest ih =>
      by_cases h : p.1 = key <;> simp [assocGet, assocInsert, h, ih]

theorem assocGet_assocInsert_ne {α β : Type} [DecidableEq α]
    (m : List (α × β)) (key other : α) (v : β) (h : key ≠ other) :
    assocGet (assocInsert m key v) other = assocGet m other := by
  induction m with
  | nil => simp [assocGet, assocInsert, h]
  | cons p rest ih =>
      by_cases hp : p.1 = key
      · simp [assocGet, assocInsert, hp, h]
      · simp only [assocInsert, hp, if_false, assocGet]
        by_cases hpo : p.1 = other <;> simp [hpo, ih]

theorem entryOrInsert_of_get_some {m : MetricsRegistryMap} {id : Nat}
    {inner : StepRecordMap} (h : assocGet m id = some inner) :
    entryOrInsert m id = (inner, m) := by
  simp [entryOrInsert, h]

/-- After `start_record`, the `(id, step_name)` record is the fresh one. -/
theorem lookupRecord_start_record (reg : StdMetricsRegistry) (id : Nat)
    (label : StepLabel) (step_name : StepName) (now : Nat) :
    lookupRecord (start_record reg id label step_name now) id step_name
      = some (StepRecord.new step_name label id now) := by
  unfold start_record lookupRecord entryOrInsert
  cases h : assocGet reg.registry id <;>
    simp [h, assocGet_assocInsert_self]

end Engine

namespace Engine

/-- Stopping an existing record updates it with the elapsed duration and the
given status, and that updated record is what the registry then holds. -/
theorem lookupRecord_stop_record_of_some {reg : StdMetricsRegistry} {id : Nat}
    {step_name : StepName} {r : StepRecord} (h : lookupRecord reg id step_name = some r)
    (status : StepStatus) (now : Nat) :
    lookupRecord (stop_record reg id step_name status now) id step_name
      = some { r with duration := some (now - r.start_time), status := some status } := by
  unfold lookupRecord at h
  cases hr : assocGet reg.registry id with
  | none => rw [hr] at h; simp [assocGet] at h
  | some inner =>
      rw [hr] at h
      simp only [Option.getD_some] at h
      unfold stop_record
      rw [entryOrInsert_of_get_some hr]
      simp only [h]
      unfold lookupRecord
      simp [assocGet_assocInsert_self]

/-- A record held with a duration makes `record_is_stopped` true. -/
theorem record_is_stopped_of_lookup {reg : StdMetricsRegistry} {id : Nat}
    {step_name : StepName} {r : StepRecord} (h : lookupRecord reg id step_name = some r)
    (hd : r.duration.isSome) : record_is_stopped reg id step_name = true := by
  unfold record_is_stopped
  rw [h]
  exact hd

/-- C6: releasing a started record's handle without an explicit stop finalizes
the record with status `NotSet` and a recorded duration; and releasing the
handle of a record that was already explicitly stopped changes nothing, so
every start is matched by exactly one finalization. -/
theorem step_record_guaranteed_completion (reg : StdMetricsRegistry) (id : Nat)
    (label : StepLabel) (step_name : StepName) (t0 : Nat) :
    (∀ t1 : Nat,
      lookupRecord
          (drop_handle (start_record reg id label step_name t0) id step_name t1)
          id step_name
        = some { step_name := step_name, label := label, id := id, start_time := t0,
                 duration := some (t1 - t0), status := some StepStatus.NotSet })
    ∧ ∀ (status : StepStatus) (t2 t3 : Nat),
        drop_handle
            (stop_record (start_record reg id label step_name t0) id step_name status t2)
            id step_name t3
          = stop_record (start_record reg id label step_name t0) id step_name status t2 := by
  have hstart := lookupRecord_start_record reg id label step_name t0
  have hnotstopped :
      record_is_stopped (start_record reg id label step_name t0) id step_name = false := by
    unfold record_is_stopped
    rw [hstart]
    rfl
  constructor
  · intro t1
    have hdrop :
        drop_handle (start_record reg id label step_name t0) id step_name t1
          = stop_record (start_record reg id label step_name t0) id step_name
              StepStatus.NotSet t1 := by
      unfold drop_handle
      rw [hnotstopped]
      simp
    rw [hdrop, lookupRecord_stop_record_of_some hstart StepStatus.NotSet t1]
    rfl
  · intro status t2 t3
    have hstop := lookupRecord_stop_record_of_some hstart status t2
    have hstopped := record_is_stopped_of_lookup hstop (by rfl)
    unfold drop_handle
    rw [hstopped]
    simp

/-- C10: stopping a `(entity, step)` pair that was never started is a no-op at
the record level: every record lookup is unchanged, nothing is sent to the
message publisher, and `get_records` output is unchanged for every entity. -/
theorem stop_record_without_start_noop (reg : StdMetricsRegistry) (id : Nat)
    (step_name : StepName) (status : StepStatus) (now : Nat)
    (h : lookupRecord reg id step_name = none) :
    (∀ (id2 : Nat) (step2 : StepName),
      lookupRecord (stop_record reg id step_name status now) id2 step2
        = lookupRecord reg id2 step2)
    ∧ (stop_record reg id step_name status now).published = reg.published
    ∧ ∀ id3 : Nat,
        get_records (stop_record reg id step_name status now) id3
          = get_records reg id3 := by
  unfold lookupRecord at h
  cases hr : assocGet reg.registry id with
  | some inner =>
      rw [hr] at h
      simp only [Option.getD_some] at h
      have hstop : stop_record reg id step_name status now = reg := by
        unfold stop_record
        rw [entryOrInsert_of_get_some hr]
        simp [h]
      rw [hstop]
      exact ⟨fun _ _ => rfl, rfl, fun _ => rfl⟩
  | none =>
      have hstop : stop_record reg id step_name status now
          = { reg with registry := assocInsert reg.registry id [] } := by
        unfold stop_record entryOrInsert
        rw [hr]
        simp [assocGet]
      rw [hstop]
      refine ⟨?_, rfl, ?_⟩
      · intro id2 step2
        by_cases hid : id = id2
        · subst hid
          unfold lookupRecord
          simp [assocGet_assocInsert_self, hr, assocGet]
        · unfold lookupRecord
          simp [assocGet_assocInsert_ne reg.registry id id2 [] hid]
      · intro id3
        by_cases hid : id = id3
        · subst hid
          unfold get_records
          simp [assocGet_assocInsert_self, hr]
        · unfold get_records
          simp [assocGet_assocInsert_ne reg.registry id id3 [] hid]

/-- Witness for C10: stopping `Deployment` for entity `0` on the empty registry
publishes nothing, leaves no record behind, and leaves `get_records` empty. -/
theorem stop_record_without_start_noop_witness :
    (stop_record ⟨[], []⟩ 0 StepName.Deployment StepStatus.Success 5).published = []
    ∧ get_records (stop_record ⟨[], []⟩ 0 StepName.Deployment StepStatus.Success 5) 0 = []
    ∧ lookupRecord (stop_record ⟨[], []⟩ 0 StepName.Deployment StepStatus.Success 5) 0
        StepName.Deployment = none := by
  have h := stop_record_without_start_noop ⟨[], []⟩ 0 StepName.Deployment
    StepStatus.Success 5 rfl
  exact ⟨h.2.1.trans rfl, (h.2.2 0).trans rfl, (h.1 0 StepName.Deployment).trans rfl⟩

end Engine

namespace Engine

/-! ### Upgrade routine

Embedding of `EKS::upgrade_with_status`
(`src/cloud_provider/aws/kubernetes/eks.rs`, lines 315-617). External
collaborators (terraform, the template engine, the Kubernetes client) are
modelled as an oracle (`UpgradeCollab`) fixing the outcome of every call the
routine can make; the routine produces the list of requests it issued, in
order, together with its result. The `tera` context is restricted to the
three keys the routine inserts; its initial value (whatever
`kubernetes::tera_context` produced) is a parameter. `scopeguard::guard`
runs its closure when the guard value is dropped, that is on every exit from
the function after the guard was created; the closure's own result is
discarded (`let _ = ...`, line 598). -/

/-- `KubernetesNodesType` (declared in `src/cloud_provider/kubernetes.rs`,
variants as used by `eks.rs`). -/
inductive KubernetesNodesType
  | Masters
  | Workers
deriving DecidableEq, Repr

/-- `KubernetesUpgradeStatus` (declared in `src/cloud_provider/kubernetes.rs`,
fields as read by `upgrade_with_status`); versions are their rendered strings. -/
structure KubernetesUpgradeStatus where
  required_upgrade_on : Option KubernetesNodesType
  requested_version : String
  deployed_masters_version : String
deriving DecidableEq, Repr

/-- The keys of the provisioning (tera) context that `upgrade_with_status`
inserts. -/
structure TeraContext where
  kubernetes_master_version : Option String
  eks_workers_version : Option String
  enable_cluster_autoscaler : Option Bool
deriving DecidableEq, Repr

/-- Metadata of a Kubernetes workload (name and namespace). -/
structure K8sMetadata where
  name : String
  namespace_field : String
deriving DecidableEq, Repr

/-- Status of a Deployment as read by the routine: both counts optional,
missing counts defaulted to 0 (`unwrap_or(0)`, lines 515-516). -/
structure DeploymentStatus where
  replicas : Option Int
  ready_replicas : Option Int
deriving DecidableEq, Repr

/-- A Deployment snapshot. -/
structure Deployment where
  metadata : K8sMetadata
  status : Option DeploymentStatus
deriving DecidableEq, Repr

/-- Status of a StatefulSet as read by the routine: `replicas` is a plain
count, `ready_replicas` optional defaulted to 0 (lines 550-554). -/
structure StatefulSetStatus where
  replicas : Int
  ready_replicas : Option Int
deriving DecidableEq, Repr

/-- A StatefulSet snapshot. -/
structure StatefulSet where
  metadata : K8sMetadata
  status : Option StatefulSetStatus
deriving DecidableEq, Repr

/-- A request issued by the upgrade routine to an external collaborator. -/
inductive UpgradeEvent
  | terraformApply (ctx : TeraContext)
  | scaleDeployment (name namespace_field : String) (replicas : Int)
  | scaleStatefulSet (name namespace_field : String) (replicas : Int)
  | setAutoscalerReplicas (replicas : Nat)
  | checkWorkers (version : String)
deriving DecidableEq, Repr

/-- The error kinds `upgrade_with_status` can return, named after the
`EngineError` constructors used at each exit. -/
inductive UpgradeError
  | cannotCopyFiles
  | terraformError
  | k8sGetError
  | k8sScaleReplicas
  | podDeletionError
  | jobDeletionError
  | k8sNodeNotReady
deriving DecidableEq, Repr

/-- Outcomes of every external call `upgrade_with_status` can make. -/
structure UpgradeCollab where
  master_template_ok : Bool
  master_apply_ok : Bool
  worker_template_ok : Bool
  get_deployments_ok : Bool
  deployments : List Deployment
  scale_deployment_ok : String → String → Bool
  get_statefulsets_ok : Bool
  statefulsets : List StatefulSet
  scale_statefulset_ok : String → String → Bool
  delete_crashlooping_pods_ok : Bool
  delete_completed_jobs_ok : Bool
  set_autoscaler_replicas_ok : Nat → Bool
  worker_apply_ok : Bool
  check_workers_ok : Bool

/-- The Deployment loop of `upgrade_with_status` (lines 509-540): scale to 0
every deployment with `replicas > 0` and `ready_replicas == 0` (missing
counts read as 0); deployments with no status are skipped; a failing scale
call aborts the routine (`?` at line 528). -/
def scale_down_deployments (ok : String → String → Bool) :
    List Deployment → List UpgradeEvent × Except UpgradeError Unit
  | [] => ([], .ok ())
  | deploy :: rest =>
    match deploy.status with
    | none => scale_down_deployments ok rest
    | some status =>
        let replicas := status.replicas.getD 0
        let ready_replicas := status.ready_replicas.getD 0
        -- if number of replicas > 0: it is not already disabled
        -- ready_replicas == 0: there is something in progress so it is scaled down
        if replicas > 0 ∧ ready_replicas = 0 then
          if ok deploy.metadata.name deploy.metadata.namespace_field then
            let (events, result) := scale_down_deployments ok rest
            (UpgradeEvent.scaleDeployment deploy.metadata.name
              deploy.metadata.namespace_field 0 :: events, result)
          else
            ([UpgradeEvent.scaleDeployment deploy.metadata.name
              deploy.metadata.namespace_field 0], .error .k8sScaleReplicas)
        else scale_down_deployments ok rest

/-- The StatefulSet loop of `upgrade_with_status` (lines 544-574), same shape
with the StatefulSet status fields. -/
def scale_down_statefulsets (ok : String → String → Bool) :
    List StatefulSet → List UpgradeEvent × Except UpgradeError Unit
  | [] => ([], .ok ())
  | sts :: rest =>
    match sts.status with
    | none => scale_down_statefulsets ok rest
    | some status =>
        let ready_replicas := status.ready_replicas.getD 0
        if status.replicas > 0 ∧ ready_replicas = 0 then
          if ok sts.metadata.name sts.metadata.namespace_field then
            let (events, result) := scale_down_statefulsets ok rest
            (UpgradeEvent.scaleStatefulSet sts.metadata.name
              sts.metadata.namespace_field 0 :: events, result)
          else
            ([UpgradeEvent.scaleStatefulSet sts.metadata.name
              sts.metadata.namespace_field 0], .error .k8sScaleReplicas)
        else scale_down_statefulsets ok rest

/-- The provisioning context handed to the worker-phase terraform apply
(`context.insert` calls at lines 462-466): autoscaler disabled, worker
version set to the requested version. -/
def workerApplyContext (status : KubernetesUpgradeStatus)
    (context : TeraContext) : TeraContext :=
  { context with
    enable_cluster_autoscaler := some false
    eks_workers_version := some status.requested_version }

/-- The provisioning context handed to the master-phase terraform apply
(`context.insert` calls at lines 374-382): master version set to the
requested version, worker version pinned to the deployed masters version. -/
def masterApplyContext (status : KubernetesUpgradeStatus)
    (context : TeraContext) : TeraContext :=
  { context with
    kubernetes_master_version := some status.requested_version
    eks_workers_version := some status.deployed_masters_version }

/-- The worker-upgrade part of `upgrade_with_status` (lines 456-616): insert
`enable_cluster_autoscaler = false` and the requested worker version into the
context, quarantine unhealthy workloads, delete crash-looping pods and
completed jobs, suspend the cluster autoscaler under a scope guard that
restores it to 1 replica on every exit, run terraform, and check workers. -/
def upgrade_workers (col : UpgradeCollab) (status : KubernetesUpgradeStatus)
    (context : TeraContext) : List UpgradeEvent × Except UpgradeError Unit :=
  -- disable cluster autoscaler to avoid interfering with AWS upgrade procedure
  let context2 := workerApplyContext status context
  if ¬ col.worker_template_ok then ([], .error .cannotCopyFiles)
  else if ¬ col.get_deployments_ok then ([], .error .k8sGetError)
  else
    match scale_down_deployments col.scale_deployment_ok col.deployments with
    | (deploy_events, .error e) => (deploy_events, .error e)
    | (deploy_events, .ok ()) =>
      if ¬ col.get_statefulsets_ok then (deploy_events, .error .k8sGetError)
      else
        match scale_down_statefulsets col.scale_statefulset_ok col.statefulsets with
        | (sts_events, .error e) => (deploy_events ++ sts_events, .error e)
        | (sts_events, .ok ()) =>
          let quarantine_events := deploy_events ++ sts_events
          if ¬ col.delete_crashlooping_pods_ok then
            (quarantine_events, .error .podDeletionError)
          else if ¬ col.delete_completed_jobs_ok then
            (quarantine_events, .error .jobDeletionError)
          else
            -- Disable cluster autoscaler deployment, re-enabled by the guard on exit
            let suspend_events := quarantine_events
              ++ [UpgradeEvent.setAutoscalerReplicas 0]
            if ¬ col.set_autoscaler_replicas_ok 0 then
              (suspend_events, .error .k8sScaleReplicas)
            else
              let apply_events := suspend_events ++ [UpgradeEvent.terraformApply context2]
              if ¬ col.worker_apply_ok then
                (apply_events ++ [UpgradeEvent.setAutoscalerReplicas 1],
                 .error .terraformError)
              else
                let check_events := apply_events
                  ++ [UpgradeEvent.checkWorkers status.requested_version]
                if ¬ col.check_workers_ok then
                  (check_events ++ [UpgradeEvent.setAutoscalerReplicas 1],
                   .error .k8sNodeNotReady)
                else
                  (check_events ++ [UpgradeEvent.setAutoscalerReplicas 1], .ok ())

/-- Embedding of `EKS::upgrade_with_status` (lines 315-617) from the
`required_upgrade_on` dispatch onwards: upgrade the master tier first when
required (pinning the worker version to the currently deployed master
version), then the workers; skip the master phase when only workers need
upgrading; do nothing when no tier does. -/
def upgrade_with_status (col : UpgradeCollab) (status : KubernetesUpgradeStatus)
    (context : TeraContext) : List UpgradeEvent × Except UpgradeError Unit :=
  match status.required_upgrade_on with
  | some KubernetesNodesType.Masters =>
      -- AWS requires the upgrade to be done in 2 steps (masters, then workers):
      -- the workers keep the current masters' version during the master apply
      let context1 := masterApplyContext status context
      if ¬ col.master_template_ok then ([], .error .cannotCopyFiles)
      else
        let master_events := [UpgradeEvent.terraformApply context1]
        if ¬ col.master_apply_ok then (master_events, .error .terraformError)
        else
          let (worker_events, result) := upgrade_workers col status context1
          (master_events ++ worker_events, result)
  | some KubernetesNodesType.Workers =>
      upgrade_workers col status context
  | none => ([], .ok ())

/-- The contexts handed to terraform apply, in order. -/
def appliesOf (events : List UpgradeEvent) : List TeraContext :=
  events.filterMap fun e =>
    match e with
    | UpgradeEvent.terraformApply ctx => some ctx
    | _ => none

/-- Whether a deployment meets the quarantine condition of the routine. -/
def deploymentQuarantined (deploy : Deployment) : Bool :=
  match deploy.status with
  | none => false
  | some status =>
      decide (status.replicas.getD 0 > 0 ∧ status.ready_replicas.getD 0 = 0)

/-- Whether a statefulset meets the quarantine condition of the routine. -/
def statefulsetQuarantined (sts : StatefulSet) : Bool :=
  match sts.status with
  | none => false
  | some status => decide (status.replicas > 0 ∧ status.ready_replicas.getD 0 = 0)

/-- The deployment scale requests among the issued events,
as `(name, namespace, replicas)` triples. -/
def deploymentScaleRequests (events : List UpgradeEvent) :
    List (String × String × Int) :=
  events.filterMap fun e =>
    match e with
    | UpgradeEvent.scaleDeployment n ns r => some (n, ns, r)
    | _ => none

/-- The statefulset scale requests among the issued events. -/
def statefulsetScaleRequests (events : List UpgradeEvent) :
    List (String × String × Int) :=
  events.filterMap fun e =>
    match e with
    | UpgradeEvent.scaleStatefulSet n ns r => some (n, ns, r)
    | _ => none

end Engine

namespace Engine

/-- Every request issued by the Deployment quarantine loop is a
scale-deployment-to-0 request. -/
theorem mem_scale_down_deployments {ok : String → String → Bool}
    {l : List Deployment} {e : UpgradeEvent}
    (he : e ∈ (scale_down_deployments ok l).1) :
    ∃ n ns, e = UpgradeEvent.scaleDeployment n ns 0 := by
  induction l with
  | nil => simp [scale_down_deployments] at he
  | cons deploy rest ih =>
      cases hs : deploy.status with
      | none =>
          simp only [scale_down_deployments, hs] at he
          exact ih he
      | some status =>
          by_cases hc : status.replicas.getD 0 > 0 ∧ status.ready_replicas.getD 0 = 0
          · by_cases hok : ok deploy.metadata.name deploy.metadata.namespace_field = true
            · rcases hrec : scale_down_deployments ok rest with ⟨events, result⟩
              simp only [scale_down_deployments, hs, hrec] at he
              rw [if_pos hc, if_pos hok] at he
              simp only [List.mem_cons] at he
              rcases he with rfl | he
              · exact ⟨_, _, rfl⟩
              · exact ih (by rw [hrec]; exact he)
            · simp only [scale_down_deployments, hs] at he
              rw [if_pos hc, if_neg hok] at he
              simp only [List.mem_singleton] at he
              exact ⟨_, _, he⟩
          · simp only [scale_down_deployments, hs] at he
            rw [if_neg hc] at he
            exact ih he

/-- Every request issued by the StatefulSet quarantine loop is a
scale-statefulset-to-0 request. -/
theorem mem_scale_down_statefulsets {ok : String → String → Bool}
    {l : List StatefulSet} {e : UpgradeEvent}
    (he : e ∈ (scale_down_statefulsets ok l).1) :
    ∃ n ns, e = UpgradeEvent.scaleStatefulSet n ns 0 := by
  induction l with
  | nil => simp [scale_down_statefulsets] at he
  | cons sts rest ih =>
      cases hs : sts.status with
      | none =>
          simp only [scale_down_statefulsets, hs] at he
          exact ih he
      | some status =>
          by_cases hc : status.replicas > 0 ∧ status.ready_replicas.getD 0 = 0
          · by_cases hok : ok sts.metadata.name sts.metadata.namespace_field = true
            · rcases hrec : scale_down_statefulsets ok rest with ⟨events, result⟩
              simp only [scale_down_statefulsets, hs, hrec] at he
              rw [if_pos hc, if_pos hok] at he
              simp only [List.mem_cons] at he
              rcases he with rfl | he
              · exact ⟨_, _, rfl⟩
              · exact ih (by rw [hrec]; exact he)
            · simp only [scale_down_statefulsets, hs] at he
              rw [if_pos hc, if_neg hok] at he
              simp only [List.mem_singleton] at he
              exact ⟨_, _, he⟩
          · simp only [scale_down_statefulsets, hs] at he
            rw [if_neg hc] at he
            exact ih he

/-- The quarantine loops never touch the autoscaler. -/
theorem setAutoscaler_not_mem_scale_down_deployments
    (ok : String → String → Bool) (l : List Deployment) (n : Nat) :
    UpgradeEvent.setAutoscalerReplicas n ∉ (scale_down_deployments ok l).1 := by
  intro hmem
  obtain ⟨_, _, heq⟩ := mem_scale_down_deployments hmem
  exact UpgradeEvent.noConfusion heq

theorem setAutoscaler_not_mem_scale_down_statefulsets
    (ok : String → String → Bool) (l : List StatefulSet) (n : Nat) :
    UpgradeEvent.setAutoscalerReplicas n ∉ (scale_down_statefulsets ok l).1 := by
  intro hmem
  obtain ⟨_, _, heq⟩ := mem_scale_down_statefulsets hmem
  exact UpgradeEvent.noConfusion heq

/-- The quarantine loops run no terraform apply. -/
theorem appliesOf_scale_down_deployments (ok : String → String → Bool)
    (l : List Deployment) : appliesOf (scale_down_deployments ok l).1 = [] := by
  refine List.filterMap_eq_nil.mpr fun e he => ?_
  obtain ⟨_, _, rfl⟩ := mem_scale_down_deployments he
  rfl

theorem appliesOf_scale_down_statefulsets (ok : String → String → Bool)
    (l : List StatefulSet) : appliesOf (scale_down_statefulsets ok l).1 = [] := by
  refine List.filterMap_eq_nil.mpr fun e he => ?_
  obtain ⟨_, _, rfl⟩ := mem_scale_down_statefulsets he
  rfl

/-- The StatefulSet loop issues no deployment-scale request. -/
theorem deploymentScaleRequests_scale_down_statefulsets
    (ok : String → String → Bool) (l : List StatefulSet) :
    deploymentScaleRequests (scale_down_statefulsets ok l).1 = [] := by
  refine List.filterMap_eq_nil.mpr fun e he => ?_
  obtain ⟨_, _, rfl⟩ := mem_scale_down_statefulsets he
  rfl

/-- The Deployment loop issues no statefulset-scale request. -/
theorem statefulsetScaleRequests_scale_down_deployments
    (ok : String → String → Bool) (l : List Deployment) :
    statefulsetScaleRequests (scale_down_deployments ok l).1 = [] := by
  refine List.filterMap_eq_nil.mpr fun e he => ?_
  obtain ⟨_, _, rfl⟩ := mem_scale_down_deployments he
  rfl

/-- When every deployment scale call succeeds, the Deployment loop succeeds
and issues exactly one scale-to-0 request per quarantined deployment, in
input order. -/
theorem scale_down_deployments_all_ok {ok : String → String → Bool}
    (hset : ∀ n ns, ok n ns = true) (l : List Deployment) :
    scale_down_deployments ok l
      = ((l.filter deploymentQuarantined).map
          (fun d => UpgradeEvent.scaleDeployment d.metadata.name
            d.metadata.namespace_field 0),
         .ok ()) := by
  induction l with
  | nil => rfl
  | cons deploy rest ih =>
      cases hs : deploy.status with
      | none =>
          simp [scale_down_deployments, hs, List.filter_cons,
            deploymentQuarantined, ih]
      | some status =>
          by_cases hc : status.replicas.getD 0 > 0 ∧ status.ready_replicas.getD 0 = 0
          · simp [scale_down_deployments, hs, hc,
              hset deploy.metadata.name deploy.metadata.namespace_field, ih,
              List.filter_cons, deploymentQuarantined]
          · simp [scale_down_deployments, hs, hc, ih, List.filter_cons,
              deploymentQuarantined]

/-- When every statefulset scale call succeeds, the StatefulSet loop succeeds
and issues exactly one scale-to-0 request per quarantined statefulset, in
input order. -/
theorem scale_down_statefulsets_all_ok {ok : String → String → Bool}
    (hset : ∀ n ns, ok n ns = true) (l : List StatefulSet) :
    scale_down_statefulsets ok l
      = ((l.filter statefulsetQuarantined).map
          (fun s => UpgradeEvent.scaleStatefulSet s.metadata.name
            s.metadata.namespace_field 0),
         .ok ()) := by
  induction l with
  | nil => rfl
  | cons sts rest ih =>
      cases hs : sts.status with
      | none =>
          simp [scale_down_statefulsets, hs, List.filter_cons,
            statefulsetQuarantined, ih]
      | some status =>
          by_cases hc : status.replicas > 0 ∧ status.ready_replicas.getD 0 = 0
          · simp [scale_down_statefulsets, hs, hc,
              hset sts.metadata.name sts.metadata.namespace_field, ih,
              List.filter_cons, statefulsetQuarantined]
          · simp [scale_down_statefulsets, hs, hc, ih, List.filter_cons,
              statefulsetQuarantined]

end Engine

namespace Engine

theorem appliesOf_nil : appliesOf [] = [] := rfl

theorem appliesOf_append (l1 l2 : List UpgradeEvent) :
    appliesOf (l1 ++ l2) = appliesOf l1 ++ appliesOf l2 :=
  List.filterMap_append l1 l2 _

theorem appliesOf_cons (e : UpgradeEvent) (l : List UpgradeEvent) :
    appliesOf (e :: l)
      = (match e with
          | UpgradeEvent.terraformApply ctx => [ctx]
          | _ => []) ++ appliesOf l := by
  cases e <;> simp [appliesOf]

theorem deploymentScaleRequests_nil : deploymentScaleRequests [] = [] := rfl

theorem deploymentScaleRequests_append (l1 l2 : List UpgradeEvent) :
    deploymentScaleRequests (l1 ++ l2)
      = deploymentScaleRequests l1 ++ deploymentScaleRequests l2 :=
  List.filterMap_append l1 l2 _

theorem deploymentScaleRequests_cons (e : UpgradeEvent) (l : List UpgradeEvent) :
    deploymentScaleRequests (e :: l)
      = (match e with
          | UpgradeEvent.scaleDeployment n ns r => [(n, ns, r)]
          | _ => []) ++ deploymentScaleRequests l := by
  cases e <;> simp [deploymentScaleRequests]

theorem statefulsetScaleRequests_nil : statefulsetScaleRequests [] = [] := rfl

theorem statefulsetScaleRequests_append (l1 l2 : List UpgradeEvent) :
    statefulsetScaleRequests (l1 ++ l2)
      = statefulsetScaleRequests l1 ++ statefulsetScaleRequests l2 :=
  List.filterMap_append l1 l2 _

theorem statefulsetScaleRequests_cons (e : UpgradeEvent) (l : List UpgradeEvent) :
    statefulsetScaleRequests (e :: l)
      = (match e with
          | UpgradeEvent.scaleStatefulSet n ns r => [(n, ns, r)]
          | _ => []) ++ statefulsetScaleRequests l := by
  cases e <;> simp [statefulsetScaleRequests]

/-- Once the worker phase has successfully suspended the autoscaler
(`setAutoscalerReplicas 0` both issued and succeeded), its request trace ends
with the compensating `setAutoscalerReplicas 1` on every exit path. -/
theorem upgrade_workers_restore (col : UpgradeCollab)
    (status : KubernetesUpgradeStatus) (context : TeraContext)
    (hok : col.set_autoscaler_replicas_ok 0 = true)
    (hmem : UpgradeEvent.setAutoscalerReplicas 0
      ∈ (upgrade_workers col status context).1) :
    ∃ pre, (upgrade_workers col status context).1
      = pre ++ [UpgradeEvent.setAutoscalerReplicas 1] := by
  rcases hd : scale_down_deployments col.scale_deployment_ok col.deployments
    with ⟨devents, dres⟩
  rcases hst : scale_down_statefulsets col.scale_statefulset_ok col.statefulsets
    with ⟨sevents, sres⟩
  have hdmem : UpgradeEvent.setAutoscalerReplicas 0 ∉ devents := by
    have h := setAutoscaler_not_mem_scale_down_deployments
      col.scale_deployment_ok col.deployments 0
    rw [hd] at h
    exact h
  have hsmem : UpgradeEvent.setAutoscalerReplicas 0 ∉ sevents := by
    have h := setAutoscaler_not_mem_scale_down_statefulsets
      col.scale_statefulset_ok col.statefulsets 0
    rw [hst] at h
    exact h
  by_cases h1 : col.worker_template_ok = true
  case neg => simp [upgrade_workers, h1] at hmem
  by_cases h2 : col.get_deployments_ok = true
  case neg => simp [upgrade_workers, h1, h2] at hmem
  cases dres with
  | error e =>
      simp [upgrade_workers, h1, h2, hd] at hmem
      exact absurd hmem hdmem
  | ok u =>
  cases u
  by_cases h3 : col.get_statefulsets_ok = true
  case neg =>
    simp [upgrade_workers, h1, h2, h3, hd] at hmem
    exact absurd hmem hdmem
  cases sres with
  | error e =>
      simp [upgrade_workers, h1, h2, h3, hd, hst] at hmem
      rcases hmem with hmem | hmem
      · exact absurd hmem hdmem
      · exact absurd hmem hsmem
  | ok u =>
  cases u
  by_cases h4 : col.delete_crashlooping_pods_ok = true
  case neg =>
    simp [upgrade_workers, h1, h2, h3, h4, hd, hst] at hmem
    rcases hmem with hmem | hmem
    · exact absurd hmem hdmem
    · exact absurd hmem hsmem
  by_cases h5 : col.delete_completed_jobs_ok = true
  case neg =>
    simp [upgrade_workers, h1, h2, h3, h4, h5, hd, hst] at hmem
    rcases hmem with hmem | hmem
    · exact absurd hmem hdmem
    · exact absurd hmem hsmem
  by_cases h6 : col.worker_apply_ok = true
  case neg =>
    refine ⟨devents ++ sevents
      ++ [UpgradeEvent.setAutoscalerReplicas 0,
          UpgradeEvent.terraformApply (workerApplyContext status context)], ?_⟩
    simp [upgrade_workers, h1, h2, h3, h4, h5, h6, hok, hd, hst]
  by_cases h7 : col.check_workers_ok = true
  case neg =>
    refine ⟨devents ++ sevents
      ++ [UpgradeEvent.setAutoscalerReplicas 0,
          UpgradeEvent.terraformApply (workerApplyContext status context),
          UpgradeEvent.checkWorkers status.requested_version], ?_⟩
    simp [upgrade_workers, h1, h2, h3, h4, h5, h6, h7, hok, hd, hst]
  refine ⟨devents ++ sevents
    ++ [UpgradeEvent.setAutoscalerReplicas 0,
        UpgradeEvent.terraformApply (workerApplyContext status context),
        UpgradeEvent.checkWorkers status.requested_version], ?_⟩
  simp [upgrade_workers, h1, h2, h3, h4, h5, h6, h7, hok, hd, hst]

end Engine

namespace Engine

/-- The worker phase hands terraform at most one context, and that context is
always the worker-apply context (autoscaler disabled, requested worker
version). -/
theorem appliesOf_upgrade_workers (col : UpgradeCollab)
    (status : KubernetesUpgradeStatus) (context : TeraContext) :
    appliesOf (upgrade_workers col status context).1 = []
    ∨ appliesOf (upgrade_workers col status context).1
      = [workerApplyContext status context] := by
  rcases hd : scale_down_deployments col.scale_deployment_ok col.deployments
    with ⟨devents, dres⟩
  rcases hst : scale_down_statefulsets col.scale_statefulset_ok col.statefulsets
    with ⟨sevents, sres⟩
  have hda : appliesOf devents = [] := by
    have h := appliesOf_scale_down_deployments col.scale_deployment_ok col.deployments
    rw [hd] at h
    exact h
  have hsa : appliesOf sevents = [] := by
    have h := appliesOf_scale_down_statefulsets col.scale_statefulset_ok col.statefulsets
    rw [hst] at h
    exact h
  by_cases h1 : col.worker_template_ok = true
  case neg => left; simp [upgrade_workers, h1, appliesOf_nil]
  by_cases h2 : col.get_deployments_ok = true
  case neg => left; simp [upgrade_workers, h1, h2, appliesOf_nil]
  cases dres with
  | error e => left; simp [upgrade_workers, h1, h2, hd, hda]
  | ok u =>
  cases u
  by_cases h3 : col.get_statefulsets_ok = true
  case neg => left; simp [upgrade_workers, h1, h2, h3, hd, hda]
  cases sres with
  | error e =>
      left
      simp [upgrade_workers, h1, h2, h3, hd, hst, appliesOf_append, hda, hsa]
  | ok u =>
  cases u
  by_cases h4 : col.delete_crashlooping_pods_ok = true
  case neg =>
    left
    simp [upgrade_workers, h1, h2, h3, h4, hd, hst, appliesOf_append, hda, hsa]
  by_cases h5 : col.delete_completed_jobs_ok = true
  case neg =>
    left
    simp [upgrade_workers, h1, h2, h3, h4, h5, hd, hst, appliesOf_append, hda, hsa]
  by_cases h6 : col.set_autoscaler_replicas_ok 0 = true
  case neg =>
    left
    simp [upgrade_workers, h1, h2, h3, h4, h5, h6, hd, hst, appliesOf_append,
      appliesOf_cons, appliesOf_nil, hda, hsa]
  by_cases h7 : col.worker_apply_ok = true
  case neg =>
    right
    simp [upgrade_workers, h1, h2, h3, h4, h5, h6, h7, hd, hst, appliesOf_append,
      appliesOf_cons, appliesOf_nil, hda, hsa]
  by_cases h8 : col.check_workers_ok = true
  case neg =>
    right
    simp [upgrade_workers, h1, h2, h3, h4, h5, h6, h7, h8, hd, hst, appliesOf_append,
      appliesOf_cons, appliesOf_nil, hda, hsa]
  right
  simp [upgrade_workers, h1, h2, h3, h4, h5, h6, h7, h8, hd, hst, appliesOf_append,
    appliesOf_cons, appliesOf_nil, hda, hsa]

/-- C1: in `upgrade_with_status`, once the cluster autoscaler has been
successfully scaled to 0 replicas before the worker-phase terraform apply,
the routine's request trace ends with the compensating scale back to 1
replica on every exit path — whether the apply succeeds, the apply fails, or
the worker-readiness check fails — so the routine never returns with the
autoscaler left at 0 replicas after having disabled it. -/
theorem autoscaler_restored_on_every_exit (col : UpgradeCollab)
    (status : KubernetesUpgradeStatus) (context : TeraContext)
    (hok : col.set_autoscaler_replicas_ok 0 = true)
    (hmem : UpgradeEvent.setAutoscalerReplicas 0
      ∈ (upgrade_with_status col status context).1) :
    ∃ pre, (upgrade_with_status col status context).1
      = pre ++ [UpgradeEvent.setAutoscalerReplicas 1] := by
  cases hreq : status.required_upgrade_on with
  | none => rw [upgrade_with_status, hreq] at hmem; simp at hmem
  | some nt =>
    cases nt with
    | Workers =>
        rw [upgrade_with_status, hreq] at hmem ⊢
        exact upgrade_workers_restore col status context hok hmem
    | Masters =>
        by_cases h1 : col.master_template_ok = true
        case neg => simp [upgrade_with_status, hreq, h1] at hmem
        by_cases h2 : col.master_apply_ok = true
        case neg => simp [upgrade_with_status, hreq, h1, h2] at hmem
        rcases hw : upgrade_workers col status (masterApplyContext status context)
          with ⟨wevents, wres⟩
        have htr : (upgrade_with_status col status context).1
            = UpgradeEvent.terraformApply (masterApplyContext status context)
              :: wevents := by
          rw [upgrade_with_status, hreq]
          simp [h1, h2, hw]
        rw [htr] at hmem
        simp only [List.mem_cons] at hmem
        have hmem2 : UpgradeEvent.setAutoscalerReplicas 0 ∈ wevents := by
          rcases hmem with heq | hmem
          · exact absurd heq (by simp)
          · exact hmem
        obtain ⟨pre, hpre⟩ := upgrade_workers_restore col status
          (masterApplyContext status context) hok (by rw [hw]; exact hmem2)
        replace hpre : wevents = pre ++ [UpgradeEvent.setAutoscalerReplicas 1] := by
          rw [hw] at hpre
          exact hpre
        refine ⟨UpgradeEvent.terraformApply (masterApplyContext status context)
          :: pre, ?_⟩
        rw [htr, hpre]
        rfl

/-- C7: when `required_upgrade_on` is `Masters`, the first context handed to
terraform apply maps the master version key to `requested_version` and the
worker version key to `deployed_masters_version`; any later apply happens
only after the master apply succeeded, and its context maps the worker
version key to `requested_version`. -/
theorem master_upgrade_pins_worker_version (col : UpgradeCollab)
    (status : KubernetesUpgradeStatus) (context : TeraContext)
    (hmaster : status.required_upgrade_on = some KubernetesNodesType.Masters) :
    (∀ ctx1, (appliesOf (upgrade_with_status col status context).1).head? = some ctx1 →
        ctx1.kubernetes_master_version = some status.requested_version
        ∧ ctx1.eks_workers_version = some status.deployed_masters_version)
    ∧ ∀ ctx2 ∈ (appliesOf (upgrade_with_status col status context).1).tail,
        col.master_apply_ok = true
        ∧ ctx2.eks_workers_version = some status.requested_version := by
  by_cases h1 : col.master_template_ok = true
  case neg =>
    have htr : (upgrade_with_status col status context).1 = [] := by
      rw [upgrade_with_status, hmaster]
      simp [h1]
    rw [htr]
    constructor
    · intro ctx1 hhead
      simp [appliesOf_nil] at hhead
    · intro ctx2 htail
      simp [appliesOf_nil] at htail
  by_cases h2 : col.master_apply_ok = true
  case neg =>
    have htr : (upgrade_with_status col status context).1
        = [UpgradeEvent.terraformApply (masterApplyContext status context)] := by
      rw [upgrade_with_status, hmaster]
      simp [h1, h2]
    rw [htr]
    constructor
    · intro ctx1 hhead
      simp only [appliesOf_cons, appliesOf_nil, List.append_nil,
        List.head?_cons, Option.some.injEq] at hhead
      subst hhead
      exact ⟨rfl, rfl⟩
    · intro ctx2 htail
      simp [appliesOf_cons, appliesOf_nil] at htail
  rcases hw : upgrade_workers col status (masterApplyContext status context)
    with ⟨wevents, wres⟩
  have happ := appliesOf_upgrade_workers col status (masterApplyContext status context)
  rw [hw] at happ
  replace happ : appliesOf wevents = []
      ∨ appliesOf wevents
        = [workerApplyContext status (masterApplyContext status context)] := happ
  have htr : (upgrade_with_status col status context).1
      = UpgradeEvent.terraformApply (masterApplyContext status context)
        :: wevents := by
    rw [upgrade_with_status, hmaster]
    simp [h1, h2, hw]
  have happs : appliesOf (upgrade_with_status col status context).1
      = masterApplyContext status context :: appliesOf wevents := by
    rw [htr]
    simp [appliesOf_cons]
  constructor
  · intro ctx1 hhead
    rw [happs] at hhead
    simp only [List.head?_cons, Option.some.injEq] at hhead
    subst hhead
    exact ⟨rfl, rfl⟩
  · intro ctx2 htail
    rw [happs, List.tail_cons] at htail
    rcases happ with happ | happ
    · rw [happ] at htail
      simp at htail
    · rw [happ] at htail
      simp only [List.mem_singleton] at htail
      subst htail
      exact ⟨h2, rfl⟩

end Engine

namespace Engine

theorem deploymentScaleRequests_map_scale (l : List Deployment) :
    deploymentScaleRequests (l.map (fun d => UpgradeEvent.scaleDeployment
        d.metadata.name d.metadata.namespace_field 0))
      = l.map (fun d => (d.metadata.name, d.metadata.namespace_field, (0 : Int))) := by
  induction l with
  | nil => rfl
  | cons d rest ih => simp [deploymentScaleRequests_cons, ih]

theorem statefulsetScaleRequests_map_scale (l : List StatefulSet) :
    statefulsetScaleRequests (l.map (fun s => UpgradeEvent.scaleStatefulSet
        s.metadata.name s.metadata.namespace_field 0))
      = l.map (fun s => (s.metadata.name, s.metadata.namespace_field, (0 : Int))) := by
  induction l with
  | nil => rfl
  | cons s rest ih => simp [statefulsetScaleRequests_cons, ih]

theorem statefulsetScaleRequests_map_scaleDeployment (l : List Deployment) :
    statefulsetScaleRequests (l.map (fun d => UpgradeEvent.scaleDeployment
        d.metadata.name d.metadata.namespace_field 0)) = [] := by
  induction l with
  | nil => rfl
  | cons d rest ih => simp [statefulsetScaleRequests_cons, ih]

theorem deploymentScaleRequests_map_scaleStatefulSet (l : List StatefulSet) :
    deploymentScaleRequests (l.map (fun s => UpgradeEvent.scaleStatefulSet
        s.metadata.name s.metadata.namespace_field 0)) = [] := by
  induction l with
  | nil => rfl
  | cons s rest ih => simp [deploymentScaleRequests_cons, ih]

/-- With healthy collaborators up to the quarantine step, the worker phase
issues exactly one deployment scale-to-0 request per quarantined deployment
and one statefulset scale-to-0 request per quarantined statefulset. -/
theorem upgrade_workers_scale_requests (col : UpgradeCollab)
    (status : KubernetesUpgradeStatus) (context : TeraContext)
    (htmpl : col.worker_template_ok = true)
    (hgetd : col.get_deployments_ok = true)
    (hgets : col.get_statefulsets_ok = true)
    (hsd : ∀ n ns, col.scale_deployment_ok n ns = true)
    (hss : ∀ n ns, col.scale_statefulset_ok n ns = true) :
    deploymentScaleRequests (upgrade_workers col status context).1
      = (col.deployments.filter deploymentQuarantined).map
          (fun d => (d.metadata.name, d.metadata.namespace_field, (0 : Int)))
    ∧ statefulsetScaleRequests (upgrade_workers col status context).1
      = (col.statefulsets.filter statefulsetQuarantined).map
          (fun s => (s.metadata.name, s.metadata.namespace_field, (0 : Int))) := by
  have hd := scale_down_deployments_all_ok hsd col.deployments
  have hst := scale_down_statefulsets_all_ok hss col.statefulsets
  by_cases h4 : col.delete_crashlooping_pods_ok = true
  case neg =>
    constructor <;>
      simp [upgrade_workers, htmpl, hgetd, hgets, h4, hd, hst,
        deploymentScaleRequests_append, statefulsetScaleRequests_append,
        deploymentScaleRequests_map_scale, statefulsetScaleRequests_map_scale,
        deploymentScaleRequests_map_scaleStatefulSet,
        statefulsetScaleRequests_map_scaleDeployment]
  by_cases h5 : col.delete_completed_jobs_ok = true
  case neg =>
    constructor <;>
      simp [upgrade_workers, htmpl, hgetd, hgets, h4, h5, hd, hst,
        deploymentScaleRequests_append, statefulsetScaleRequests_append,
        deploymentScaleRequests_map_scale, statefulsetScaleRequests_map_scale,
        deploymentScaleRequests_map_scaleStatefulSet,
        statefulsetScaleRequests_map_scaleDeployment]
  by_cases h6 : col.set_autoscaler_replicas_ok 0 = true
  case neg =>
    constructor <;>
      simp [upgrade_workers, htmpl, hgetd, hgets, h4, h5, h6, hd, hst,
        deploymentScaleRequests_append, statefulsetScaleRequests_append,
        deploymentScaleRequests_cons, statefulsetScaleRequests_cons,
        deploymentScaleRequests_nil, statefulsetScaleRequests_nil,
        deploymentScaleRequests_map_scale, statefulsetScaleRequests_map_scale,
        deploymentScaleRequests_map_scaleStatefulSet,
        statefulsetScaleRequests_map_scaleDeployment]
  by_cases h7 : col.worker_apply_ok = true
  case neg =>
    constructor <;>
      simp [upgrade_workers, htmpl, hgetd, hgets, h4, h5, h6, h7, hd, hst,
        deploymentScaleRequests_append, statefulsetScaleRequests_append,
        deploymentScaleRequests_cons, statefulsetScaleRequests_cons,
        deploymentScaleRequests_nil, statefulsetScaleRequests_nil,
        deploymentScaleRequests_map_scale, statefulsetScaleRequests_map_scale,
        deploymentScaleRequests_map_scaleStatefulSet,
        statefulsetScaleRequests_map_scaleDeployment]
  by_cases h8 : col.check_workers_ok = true
  case neg =>
    constructor <;>
      simp [upgrade_workers, htmpl, hgetd, hgets, h4, h5, h6, h7, h8, hd, hst,
        deploymentScaleRequests_append, statefulsetScaleRequests_append,
        deploymentScaleRequests_cons, statefulsetScaleRequests_cons,
        deploymentScaleRequests_nil, statefulsetScaleRequests_nil,
        deploymentScaleRequests_map_scale, statefulsetScaleRequests_map_scale,
        deploymentScaleRequests_map_scaleStatefulSet,
        statefulsetScaleRequests_map_scaleDeployment]
  constructor <;>
    simp [upgrade_workers, htmpl, hgetd, hgets, h4, h5, h6, h7, h8, hd, hst,
      deploymentScaleRequests_append, statefulsetScaleRequests_append,
      deploymentScaleRequests_cons, statefulsetScaleRequests_cons,
      deploymentScaleRequests_nil, statefulsetScaleRequests_nil,
      deploymentScaleRequests_map_scale, statefulsetScaleRequests_map_scale,
      deploymentScaleRequests_map_scaleStatefulSet,
      statefulsetScaleRequests_map_scaleDeployment]

/-- C8: during worker-upgrade preparation, with the scans reachable and every
scale call succeeding, a scale-to-0 request is issued exactly for the
Deployments and StatefulSets whose reported replicas count is positive and
whose ready-replicas count (missing counts read as 0) is zero, in input
order; all other workloads, including those with no status, are left
untouched. -/
theorem workload_quarantine_requests (col : UpgradeCollab)
    (status : KubernetesUpgradeStatus) (context : TeraContext)
    (nt : KubernetesNodesType)
    (hreq : status.required_upgrade_on = some nt)
    (hmaster : nt = KubernetesNodesType.Masters →
        col.master_template_ok = true ∧ col.master_apply_ok = true)
    (htmpl : col.worker_template_ok = true)
    (hgetd : col.get_deployments_ok = true)
    (hgets : col.get_statefulsets_ok = true)
    (hsd : ∀ n ns, col.scale_deployment_ok n ns = true)
    (hss : ∀ n ns, col.scale_statefulset_ok n ns = true) :
    deploymentScaleRequests (upgrade_with_status col status context).1
      = (col.deployments.filter deploymentQuarantined).map
          (fun d => (d.metadata.name, d.metadata.namespace_field, (0 : Int)))
    ∧ statefulsetScaleRequests (upgrade_with_status col status context).1
      = (col.statefulsets.filter statefulsetQuarantined).map
          (fun s => (s.metadata.name, s.metadata.namespace_field, (0 : Int))) := by
  cases nt with
  | Workers =>
      have h := upgrade_workers_scale_requests col status context
        htmpl hgetd hgets hsd hss
      rw [upgrade_with_status, hreq]
      exact h
  | Masters =>
      obtain ⟨h1, h2⟩ := hmaster rfl
      have h := upgrade_workers_scale_requests col status
        (masterApplyContext status context) htmpl hgetd hgets hsd hss
      rcases hw : upgrade_workers col status (masterApplyContext status context)
        with ⟨wevents, wres⟩
      replace h : deploymentScaleRequests wevents
          = (col.deployments.filter deploymentQuarantined).map
              (fun d => (d.metadata.name, d.metadata.namespace_field, (0 : Int)))
          ∧ statefulsetScaleRequests wevents
          = (col.statefulsets.filter statefulsetQuarantined).map
              (fun s => (s.metadata.name, s.metadata.namespace_field, (0 : Int))) := by
        rw [hw] at h
        exact h
      have htr : (upgrade_with_status col status context).1
          = UpgradeEvent.terraformApply (masterApplyContext status context)
            :: wevents := by
        rw [upgrade_with_status, hreq]
        simp [h1, h2, hw]
      rw [htr]
      constructor
      · simp [deploymentScaleRequests_cons, h.1]
      · simp [statefulsetScaleRequests_cons, h.2]

end Engine

namespace Engine

/-- A fully healthy collaborator: one mid-rollout deployment (2 replicas, 0
ready), one healthy deployment, one mid-rollout statefulset; every external
call succeeds. -/
def exampleCollab : UpgradeCollab :=
  { master_template_ok := true
    master_apply_ok := true
    worker_template_ok := true
    get_deployments_ok := true
    deployments :=
      [{ metadata := { name := "stuck", namespace_field := "default" },
         status := some { replicas := some 2, ready_replicas := some 0 } },
       { metadata := { name := "healthy", namespace_field := "default" },
         status := some { replicas := some 2, ready_replicas := some 2 } }]
    scale_deployment_ok := fun _ _ => true
    get_statefulsets_ok := true
    statefulsets :=
      [{ metadata := { name := "db", namespace_field := "default" },
         status := some { replicas := 1, ready_replicas := some 0 } }]
    scale_statefulset_ok := fun _ _ => true
    delete_crashlooping_pods_ok := true
    delete_completed_jobs_ok := true
    set_autoscaler_replicas_ok := fun _ => true
    worker_apply_ok := true
    check_workers_ok := true }

/-- An upgrade request that requires a master upgrade from 1.23 to 1.24. -/
def exampleUpgradeStatus : KubernetesUpgradeStatus :=
  { required_upgrade_on := some KubernetesNodesType.Masters
    requested_version := "1.24"
    deployed_masters_version := "1.23" }

/-- An initial provisioning context with none of the three keys set. -/
def exampleContext : TeraContext :=
  { kubernetes_master_version := none
    eks_workers_version := none
    enable_cluster_autoscaler := none }

/-- Witness for C1: on the fully healthy run the last issued request is the
autoscaler restore to 1 replica. -/
theorem autoscaler_restored_on_every_exit_witness :
    ((upgrade_with_status exampleCollab exampleUpgradeStatus exampleContext).1).getLast?
      = some (UpgradeEvent.setAutoscalerReplicas 1) := by
  obtain ⟨pre, hpre⟩ := autoscaler_restored_on_every_exit exampleCollab
    exampleUpgradeStatus exampleContext rfl (by decide)
  rw [hpre, List.getLast?_concat]

/-- Witness for C7: on the fully healthy master-upgrade run the first apply
context carries master version 1.24 and worker version 1.23. -/
theorem master_upgrade_pins_worker_version_witness :
    (appliesOf (upgrade_with_status exampleCollab exampleUpgradeStatus
        exampleContext).1).head?
      = some { kubernetes_master_version := some "1.24",
               eks_workers_version := some "1.23",
               enable_cluster_autoscaler := none }
    ∧ TeraContext.kubernetes_master_version
        { kubernetes_master_version := some "1.24",
          eks_workers_version := some "1.23",
          enable_cluster_autoscaler := none } = some "1.24"
    ∧ TeraContext.eks_workers_version
        { kubernetes_master_version := some "1.24",
          eks_workers_version := some "1.23",
          enable_cluster_autoscaler := none } = some "1.23" :=
  ⟨by decide,
   (master_upgrade_pins_worker_version exampleCollab exampleUpgradeStatus
      exampleContext rfl).1
     { kubernetes_master_version := some "1.24",
       eks_workers_version := some "1.23",
       enable_cluster_autoscaler := none } (by decide)⟩

/-- Witness for C8: on the fully healthy run exactly the stuck deployment
and the stuck statefulset receive a scale-to-0 request. -/
theorem workload_quarantine_requests_witness :
    deploymentScaleRequests (upgrade_with_status exampleCollab
        exampleUpgradeStatus exampleContext).1 = [("stuck", "default", 0)]
    ∧ statefulsetScaleRequests (upgrade_with_status exampleCollab
        exampleUpgradeStatus exampleContext).1 = [("db", "default", 0)] := by
  have h := workload_quarantine_requests exampleCollab exampleUpgradeStatus
    exampleContext KubernetesNodesType.Masters rfl (fun _ => ⟨rfl, rfl⟩)
    rfl rfl rfl (fun _ _ => rfl) (fun _ _ => rfl)
  exact ⟨h.1.trans (by decide), h.2.trans (by decide)⟩

end Engine
